import Mathlib

/-!
Shallow embedding of the inventory-reconciliation core of the repository
(`src/app.py`): the functions `update_master_sheet`, `clean_sales_xlsx`,
`clean_beer_store_master` and `clean_beer_store_invoice_df`, over a model of
pandas DataFrames.

Modelling conventions:
- A scalar cell of a DataFrame is a `Cell`: null (NaN), a string, an integer,
  or a float.  Float values are modelled as exact rationals; every concrete
  float value used in a theorem below is exactly representable in binary
  floating point, so the modelled arithmetic agrees with the program's.
- Python string operations (`str.strip`, `str.replace('-','')`, substring
  containment) are implemented structurally over the character list, so that
  concrete runs reduce inside the kernel.
- `astype(str)` / `str()` is `cellToStr`; `pd.to_numeric(errors='coerce')`
  followed by `.fillna(0)` is `cellToNumQ`.
- `astype(int)` on a float value (numpy cast) truncates toward zero:
  `truncToInt`.
- Fallible Python code (KeyError / IndexError / ValueError) is `Except`.
-/

set_option maxRecDepth 8000

unseal Rat.add Rat.mul Rat.sub Rat.inv Rat.ofScientific

deriving instance DecidableEq for Except

inductive Cell where
  | null : Cell
  | str : String → Cell
  | int : Int → Cell
  | float : ℚ → Cell
deriving DecidableEq, Repr

/-- Python `str.strip()` on a character list: drop whitespace from both
ends. -/
def stripChars (cs : List Char) : List Char :=
  ((cs.dropWhile Char.isWhitespace).reverse.dropWhile Char.isWhitespace).reverse

/-- Python `str.strip()` (also pandas `.str.strip()`). -/
def pyStrip (s : String) : String := ⟨stripChars s.toList⟩

/-- Python `str.replace('-', '')` (pandas `.str.replace('-', '', regex=False)`):
for the single-character pattern this deletes every hyphen. -/
def removeHyphens (s : String) : String := ⟨s.toList.filter (fun c => c != '-')⟩

/-- Python `str.lstrip('0')`. -/
def lstripZeros (s : String) : String := ⟨s.toList.dropWhile (fun c => c = '0')⟩

/-- Whether `pat` is a leading block of `l`. -/
def charsLead : List Char → List Char → Bool
  | [], _ => true
  | _ :: _, [] => false
  | a :: as, b :: bs => a = b && charsLead as bs

/-- Whether `pat` occurs contiguously anywhere in `l` (Python `in` /
pandas `str.contains` with a literal pattern). -/
def charsContain (pat : List Char) : List Char → Bool
  | [] => charsLead pat []
  | c :: rest => charsLead pat (c :: rest) || charsContain pat rest

/-- Python substring test `pat in s`. -/
def strContains (s pat : String) : Bool := charsContain pat.toList s.toList

/-- Python `str()` of a float.  `str(123456.0) = "123456.0"`.  Non-integral
floats are rendered through the rational's `toString`; no theorem below
evaluates this branch (every float sent through `str()` in a theorem is
integer-valued). -/
def floatRepr (q : ℚ) : String :=
  if q.den = 1 then toString q.num ++ ".0" else toString q

/-- Python `str()` / pandas `astype(str)` applied to one cell.
`str(float('nan')) = "nan"`. -/
def cellToStr : Cell → String
  | Cell.null => "nan"
  | Cell.str s => s
  | Cell.int n => toString n
  | Cell.float q => floatRepr q

/-- Value of a list of decimal digit characters, `none` if the list is empty
or holds a non-digit. -/
def digitsVal : List Char → Option Nat
  | [] => none
  | cs =>
    if cs.all Char.isDigit then
      some (cs.foldl (fun a c => 10 * a + (c.toNat - 48)) 0)
    else none

/-- Parse a decimal literal `[-]digits[.digits]` as an exact rational
(the grammar accepted by `pd.to_numeric` on the inputs this program sees;
exponent forms are not modelled and no theorem exercises them). -/
def parseDecimal : String → Option ℚ := fun s =>
  let cs := s.toList
  let (sign, cs) : ℤ × List Char :=
    match cs with
    | '-' :: rest => (-1, rest)
    | '+' :: rest => (1, rest)
    | _ => (1, cs)
  match cs.splitOn '.' with
  | [ip] => (digitsVal ip).map (fun n => (sign * n : ℤ))
  | [ip, fp] =>
    match digitsVal ip, digitsVal fp with
    | some n, some f =>
      some (sign * ((n : ℚ) + (f : ℚ) / ((10 : ℚ) ^ fp.length)))
    | some n, none => if fp = [] then some (sign * n : ℤ) else none
    | none, some f => if ip = [] then some (sign * ((f : ℚ) / ((10 : ℚ) ^ fp.length))) else none
    | none, none => none
  | _ => none

/-- Parse a string the way Python `int(s)` does: surrounding whitespace,
optional sign, then decimal digits only (no dot, no inner spaces). -/
def parseIntStrict : String → Option Int := fun s =>
  let cs := stripChars s.toList
  match cs with
  | '-' :: rest => (digitsVal rest).map (fun n => -(n : ℤ))
  | '+' :: rest => (digitsVal rest).map (fun n => (n : ℤ))
  | _ => (digitsVal cs).map (fun n => (n : ℤ))

/-- One cell through `pd.to_numeric(errors='coerce').fillna(0)`: numbers pass
through, parseable strings are parsed, everything else (null included)
becomes 0. -/
def cellToNumQ : Cell → ℚ
  | Cell.null => 0
  | Cell.int n => (n : ℚ)
  | Cell.float q => q
  | Cell.str s => (parseDecimal (pyStrip s)).getD 0

/-- Float-to-integer conversion as numpy's `astype(int)` performs it:
truncation toward zero.  For `q = num/den` with `den > 0` this is the
t-rounding division of the numerator by the denominator. -/
def truncToInt (q : ℚ) : Int := q.num.tdiv (q.den : ℤ)

/-- The key coercion the engine applies to each of its three tables
(`app.py` lines 31-33): `astype(str).str.strip()`. -/
def keyOf (c : Cell) : String := pyStrip (cellToStr c)

/-- One string UPC cell through `clean_beer_store_master` (`app.py` lines
97-98): remove hyphens, strip surrounding whitespace, strip leading zeros. -/
def masterCleanStr (s : String) : String := lstripZeros (pyStrip (removeHyphens s))

/-- One UPC cell of an object-dtype master column through
`clean_beer_store_master`: pandas `.str` methods map non-string elements of an
object column to NaN. -/
def masterCleanCell : Cell → Cell
  | Cell.str s => Cell.str (masterCleanStr s)
  | _ => Cell.null

/-- Full key path of a string identifier arriving in the master sheet:
`clean_beer_store_master` then the engine's `astype(str).str.strip()`. -/
def masterSourceKey (s : String) : String := keyOf (masterCleanCell (Cell.str s))

/-- One `Item No` cell through `clean_sales_xlsx` line 86:
`astype(str).str.strip()`. -/
def salesCleanCell (c : Cell) : Cell := Cell.str (pyStrip (cellToStr c))

/-- Full key path of an identifier arriving in the sales sheet: the sales
cleaner's stringify-and-strip, then the engine's `astype(str).str.strip()`. -/
def salesSourceKey (c : Cell) : String := keyOf (salesCleanCell c)

/-- One `UPC Code` cell through the lambda of `clean_beer_store_invoice_df`
(`app.py` line 102): `str(int(x)) if pd.notnull(x) else x`.  Python `int`
raises `ValueError` on a string that is not a pure integer literal. -/
def invoiceCastCell (c : Cell) : Except String Cell :=
  match c with
  | Cell.null => Except.ok Cell.null
  | Cell.int n => Except.ok (Cell.str (toString n))
  | Cell.float q => Except.ok (Cell.str (toString (truncToInt q)))
  | Cell.str s =>
    match parseIntStrict s with
    | some n => Except.ok (Cell.str (toString n))
    | none => Except.error "ValueError"

/-- Full key path of an identifier arriving on the invoice:
`clean_beer_store_invoice_df`'s integer cast, then the engine's
`astype(str).str.strip()`. -/
def invoiceSourceKey (c : Cell) : Except String String :=
  (invoiceCastCell c).map keyOf

/-! ## The three input tables of `update_master_sheet`

Typed row models after the column renames of `app.py` lines 26-28, with the
column set the function's docstring and the app instructions require
(`UPC`/`current_stock`/`Description`, `Item No`/`Description`/`Units`,
`UPC Code`/`Product Description`/`Quantity Confirmed`). -/

structure MasterRow where
  upc : Cell
  description : Cell
  currentStock : Cell
deriving DecidableEq, Repr

structure SalesRow where
  itemNo : Cell
  description : Cell
  units : Cell
deriving DecidableEq, Repr

structure InvoiceRow where
  upcCode : Cell
  productDescription : Cell
  quantityConfirmed : Cell
deriving DecidableEq, Repr

/-- Master ledger after `app.py` lines 31 and 36: key stringified and
stripped, `current_stock` coerced to numeric with invalid values as 0. -/
structure PreppedMasterRow where
  upc : String
  description : Cell
  currentStock : ℚ
deriving DecidableEq, Repr

def prepMaster (m : List MasterRow) : List PreppedMasterRow :=
  m.map fun r =>
    { upc := keyOf r.upc
      description := r.description
      currentStock := cellToNumQ r.currentStock }

/-- Pandas `groupby(...).sum()` on an object (description) column:
concatenation of the string cells of the group, skipping NaN; a group with no
string cell sums to the integer 0.  Mixed string/number groups, which pandas
would reject with a `TypeError`, are not exercised by any theorem. -/
def sumDescriptions (cs : List Cell) : Cell :=
  let ss := cs.filterMap (fun c => match c with | Cell.str s => some s | _ => none)
  match ss with
  | [] => Cell.int 0
  | _ => Cell.str (ss.foldl (fun a b => a ++ b) "")

/-- The distinct normalized keys of the sales table, one group per key.
`groupby(sort=True)` additionally sorts the group keys; the summary is only
ever consumed through key lookup in a left join, so the summary-internal
order is unobservable and the first-appearance order used here is
equivalent. -/
def salesKeys (s : List SalesRow) : List String :=
  (s.map (fun r => keyOf r.itemNo)).dedup

structure SalesSummaryRow where
  upc : String
  soldProductName : Cell
  quantitySold : ℚ
deriving DecidableEq, Repr

/-- `app.py` lines 44-45: group the sales table by `UPC`, summing `Units`
(already numerically coerced by line 40) and `Description`, then rename to
`quantity_sold` / `sold_product_name`. -/
def salesSummary (s : List SalesRow) : List SalesSummaryRow :=
  (salesKeys s).map fun k =>
    let grp := s.filter (fun r => keyOf r.itemNo = k)
    { upc := k
      soldProductName := sumDescriptions (grp.map (fun r => r.description))
      quantitySold := (grp.map (fun r => cellToNumQ r.units)).sum }

def invoiceKeys (i : List InvoiceRow) : List String :=
  (i.map (fun r => keyOf r.upcCode)).dedup

structure InvoiceSummaryRow where
  upc : String
  recivedProductName : Cell
  quantityReceived : ℚ
deriving DecidableEq, Repr

/-- `app.py` lines 47-48: group the invoice table by `UPC`, summing
`Quantity Confirmed` (coerced by line 41) and `Product Description`, then
rename to `quantity_received` / `recived_product_name` (sic). -/
def invoiceSummary (i : List InvoiceRow) : List InvoiceSummaryRow :=
  (invoiceKeys i).map fun k =>
    let grp := i.filter (fun r => keyOf r.upcCode = k)
    { upc := k
      recivedProductName := sumDescriptions (grp.map (fun r => r.productDescription))
      quantityReceived := (grp.map (fun r => cellToNumQ r.quantityConfirmed)).sum }

/-- Result row of the first left merge (`app.py` line 52): master columns plus
the sales-summary columns, NaN (`Cell.null` / `none`) where no sales group
matched. -/
structure M1Row where
  upc : String
  description : Cell
  currentStock : ℚ
  soldProductName : Cell
  quantitySold : Option ℚ
deriving DecidableEq, Repr

def joinSales (r : PreppedMasterRow) (srow : SalesSummaryRow) : M1Row :=
  { upc := r.upc
    description := r.description
    currentStock := r.currentStock
    soldProductName := srow.soldProductName
    quantitySold := some srow.quantitySold }

def unmatchedSales (r : PreppedMasterRow) : M1Row :=
  { upc := r.upc
    description := r.description
    currentStock := r.currentStock
    soldProductName := Cell.null
    quantitySold := none }

/-- One left row through `pd.merge(..., on='UPC', how='left')`: all right
rows with an equal key, or a single NaN-extended row when none matches. -/
def matchRowsSales (r : PreppedMasterRow) (sums : List SalesSummaryRow) : List M1Row :=
  if (sums.filter (fun srow => srow.upc = r.upc)).isEmpty then [unmatchedSales r]
  else (sums.filter (fun srow => srow.upc = r.upc)).map (joinSales r)

def mergeSales : List PreppedMasterRow → List SalesSummaryRow → List M1Row
  | [], _ => []
  | r :: rest, sums => matchRowsSales r sums ++ mergeSales rest sums

/-- Result row of the second left merge (`app.py` line 53). -/
structure M2Row where
  upc : String
  description : Cell
  currentStock : ℚ
  soldProductName : Cell
  quantitySold : Option ℚ
  recivedProductName : Cell
  quantityReceived : Option ℚ
deriving DecidableEq, Repr

def joinInvoice (r : M1Row) (irow : InvoiceSummaryRow) : M2Row :=
  { upc := r.upc
    description := r.description
    currentStock := r.currentStock
    soldProductName := r.soldProductName
    quantitySold := r.quantitySold
    recivedProductName := irow.recivedProductName
    quantityReceived := some irow.quantityReceived }

def unmatchedInvoice (r : M1Row) : M2Row :=
  { upc := r.upc
    description := r.description
    currentStock := r.currentStock
    soldProductName := r.soldProductName
    quantitySold := r.quantitySold
    recivedProductName := Cell.null
    quantityReceived := none }

def matchRowsInvoice (r : M1Row) (sums : List InvoiceSummaryRow) : List M2Row :=
  if (sums.filter (fun irow => irow.upc = r.upc)).isEmpty then [unmatchedInvoice r]
  else (sums.filter (fun irow => irow.upc = r.upc)).map (joinInvoice r)

def mergeInvoice : List M1Row → List InvoiceSummaryRow → List M2Row
  | [], _ => []
  | r :: rest, sums => matchRowsInvoice r sums ++ mergeInvoice rest sums

/-- Row after `app.py` lines 55-64, before the terminal `astype(int)`.
Lines 55-56 call `fillna('Not Applicable')` on the two name columns WITHOUT
`inplace=True` and discard the result, so the name columns keep their NaN;
lines 57-58 do assign, so the quantity columns are zero-filled. -/
structure PreCastRow where
  upc : String
  description : Cell
  currentStock : ℚ
  soldProductName : Cell
  quantitySold : ℚ
  recivedProductName : Cell
  quantityReceived : ℚ
  newStock : ℚ
deriving DecidableEq, Repr

def fillAndCompute (r : M2Row) : PreCastRow :=
  let qs := r.quantitySold.getD 0
  let qr := r.quantityReceived.getD 0
  { upc := r.upc
    description := r.description
    currentStock := r.currentStock
    soldProductName := r.soldProductName
    quantitySold := qs
    recivedProductName := r.recivedProductName
    quantityReceived := qr
    newStock := r.currentStock + qr - qs }

/-- Output row of `update_master_sheet` after line 68 casts `current_stock`,
`quantity_sold`, `quantity_received` and `new_stock` to integer. -/
structure UpdatedRow where
  upc : String
  description : Cell
  currentStock : Int
  soldProductName : Cell
  quantitySold : Int
  recivedProductName : Cell
  quantityReceived : Int
  newStock : Int
deriving DecidableEq, Repr

def castRow (r : PreCastRow) : UpdatedRow :=
  { upc := r.upc
    description := r.description
    currentStock := truncToInt r.currentStock
    soldProductName := r.soldProductName
    quantitySold := truncToInt r.quantitySold
    recivedProductName := r.recivedProductName
    quantityReceived := truncToInt r.quantityReceived
    newStock := truncToInt r.newStock }

/-- The table built by `update_master_sheet` just before line 68's
`astype(int)`. -/
def updatedPreCast (m : List MasterRow) (s : List SalesRow) (i : List InvoiceRow) :
    List PreCastRow :=
  (mergeInvoice (mergeSales (prepMaster m) (salesSummary s)) (invoiceSummary i)).map
    fillAndCompute

/-- `update_master_sheet` (`app.py` lines 6-69), on inputs carrying the
columns its docstring requires. -/
def update_master_sheet (m : List MasterRow) (s : List SalesRow) (i : List InvoiceRow) :
    List UpdatedRow :=
  (updatedPreCast m s i).map castRow

/-! ## The cleaners -/

/-- A raw spreadsheet of unknown shape: column labels plus rows of cells
(the shape `clean_sales_xlsx` receives from `pd.read_excel`). -/
structure PDF where
  cols : List Cell
  data : List (List Cell)
deriving DecidableEq, Repr

/-- The scan of `app.py` line 77: a row is the header row when some cell's
string form contains `'Entry Type'` and some cell's string form contains
`'Item No'`. -/
def sentinelRow (row : List Cell) : Bool :=
  row.any (fun c => strContains (cellToStr c) "Entry Type") &&
  row.any (fun c => strContains (cellToStr c) "Item No")

/-- Position of the first header (sentinel) row, the
`sales_df_cleaned[...].index` then `header_row_idx[0]` of `app.py` lines
76-81. -/
def findHeaderIdx : List (List Cell) → Option Nat
  | [] => none
  | row :: rest => if sentinelRow row then some 0 else (findHeaderIdx rest).map (· + 1)

/-- Position of the column carrying label `lbl` (pandas label lookup
`df['Item No']`; with duplicate labels pandas would return a sub-frame,
which no claim exercises — the first position is used). -/
def colIdx (lbl : Cell) : List Cell → Option Nat
  | [] => none
  | c :: rest => if c = lbl then some 0 else (colIdx lbl rest).map (· + 1)

/-- `app.py` lines 86-88 applied after the (possibly skipped) header
promotion: access the `Item No` column (`KeyError` when absent), stringify
and strip it, and drop every row that still contains a null. -/
def applyItemNo (cols2 : List Cell) (data2 : List (List Cell)) : Except String PDF :=
  match colIdx (Cell.str "Item No") cols2 with
  | none => Except.error "KeyError"
  | some ci =>
    Except.ok
      { cols := cols2
        data := (data2.map (fun row => row.set ci (salesCleanCell (row.getD ci Cell.null)))).filter
          (fun row => row.all (fun c => c != Cell.null)) }

/-- `clean_sales_xlsx` (`app.py` lines 71-90).  Drops the first column
(raising `IndexError` if there is none), promotes the sentinel row to the
header when one exists — discarding it and everything above it — and in both
cases runs the `Item No` coercion and the null-row drop. -/
def clean_sales_xlsx (df : PDF) : Except String PDF :=
  match df.cols with
  | [] => Except.error "IndexError"
  | _ :: restCols =>
    match findHeaderIdx (df.data.map List.tail) with
    | some j =>
      applyItemNo ((df.data.map List.tail).getD j [])
        ((df.data.map List.tail).drop (j + 1))
    | none => applyItemNo restCols (df.data.map List.tail)

/-- `clean_beer_store_master` (`app.py` lines 92-99) on an object-dtype `UPC`
column: hyphens removed, whitespace stripped, leading zeros stripped.  (On a
non-object column line 97's `.str` accessor would raise before line 98's
dtype guard; only the object-dtype path is modelled and exercised.) -/
def clean_beer_store_master (df : List MasterRow) : List MasterRow :=
  df.map fun r => { r with upc := masterCleanCell r.upc }

/-- `clean_beer_store_invoice_df` (`app.py` lines 101-104): cast each
non-null `UPC Code` through `str(int(x))` (a `ValueError` aborts the whole
`apply`), then drop the rows whose `UPC Code` is null. -/
def clean_beer_store_invoice_df (df : List InvoiceRow) : Except String (List InvoiceRow) := do
  let cast ← df.mapM (fun r => (invoiceCastCell r.upcCode).map (fun c => { r with upcCode := c }))
  return cast.filter (fun r => r.upcCode != Cell.null)

/-! ## Call-effect models

Python passes DataFrames by reference, so a caller can observe whether a
function mutated the frame it was given.  Each `..._call` definition returns
the function's result together with the state of the argument frame after
the call, read off from the source: `update_master_sheet` copies all three
arguments on lines 21-23 and every subsequent rename/coercion/assignment
targets the copies; `clean_beer_store_master` assigns to its argument's
`UPC` column in place (lines 97-98) and returns that same frame;
`clean_beer_store_invoice_df` assigns the cast column to its argument (line
102) but performs `dropna` on a fresh frame (line 103), so the argument ends
column-cast yet row-complete.  If the cast raises, the column assignment
never happens and the argument is untouched. -/

def update_master_sheet_call (m : List MasterRow) (s : List SalesRow) (i : List InvoiceRow) :
    List UpdatedRow × (List MasterRow × List SalesRow × List InvoiceRow) :=
  (update_master_sheet m s i, (m, s, i))

def clean_beer_store_master_call (df : List MasterRow) :
    List MasterRow × List MasterRow :=
  let out := clean_beer_store_master df
  (out, out)

def clean_beer_store_invoice_df_call (df : List InvoiceRow) :
    Except String (List InvoiceRow) × List InvoiceRow :=
  match df.mapM (fun r => (invoiceCastCell r.upcCode).map (fun c => { r with upcCode := c })) with
  | Except.error e => (Except.error e, df)
  | Except.ok cast => (Except.ok (cast.filter (fun r => r.upcCode != Cell.null)), cast)
section Helpers

/-- In a list whose keys are pairwise distinct, at most one element carries
any given key. -/
theorem length_filter_key_le_one {α : Type} (f : α → String) (k : String) :
    ∀ l : List α, (l.map f).Nodup → (l.filter (fun x => f x = k)).length ≤ 1 := by
  intro l
  induction l with
  | nil => simp
  | cons a t ih =>
    intro h
    rw [List.map_cons, List.nodup_cons] at h
    by_cases hk : f a = k
    · rw [List.filter_cons_of_pos (by simpa using hk)]
      have ht : t.filter (fun x => f x = k) = [] := by
        rw [List.filter_eq_nil_iff]
        intro x hx hfx
        have hfx' : f x = k := by simpa using hfx
        exact h.1 (by rw [hk, ← hfx']; exact List.mem_map_of_mem f hx)
      simp [ht]
    · rw [List.filter_cons_of_neg (by simpa using hk)]
      exact ih h.2

theorem salesSummary_map_upc (s : List SalesRow) :
    (salesSummary s).map (fun r => r.upc) = salesKeys s := by
  simp [salesSummary, Function.comp_def]

theorem invoiceSummary_map_upc (i : List InvoiceRow) :
    (invoiceSummary i).map (fun r => r.upc) = invoiceKeys i := by
  simp [invoiceSummary, Function.comp_def]

theorem salesSummary_nodup (s : List SalesRow) :
    ((salesSummary s).map (fun r => r.upc)).Nodup := by
  rw [salesSummary_map_upc]
  exact List.nodup_dedup _

theorem invoiceSummary_nodup (i : List InvoiceRow) :
    ((invoiceSummary i).map (fun r => r.upc)).Nodup := by
  rw [invoiceSummary_map_upc]
  exact List.nodup_dedup _

theorem matchRowsSales_length (r : PreppedMasterRow) (sums : List SalesSummaryRow)
    (h : (sums.map (fun x => x.upc)).Nodup) : (matchRowsSales r sums).length = 1 := by
  unfold matchRowsSales
  by_cases he : (sums.filter (fun srow => srow.upc = r.upc)).isEmpty
  · simp [he]
  · have hle : (sums.filter (fun srow => srow.upc = r.upc)).length ≤ 1 :=
      length_filter_key_le_one (fun x => x.upc) r.upc sums h
    have hne : (sums.filter (fun srow => srow.upc = r.upc)).length ≠ 0 := by
      simpa [List.isEmpty_iff, List.length_eq_zero] using he
    rw [if_neg he, List.length_map]
    omega

theorem matchRowsInvoice_length (r : M1Row) (sums : List InvoiceSummaryRow)
    (h : (sums.map (fun x => x.upc)).Nodup) : (matchRowsInvoice r sums).length = 1 := by
  unfold matchRowsInvoice
  by_cases he : (sums.filter (fun irow => irow.upc = r.upc)).isEmpty
  · simp [he]
  · have hle : (sums.filter (fun irow => irow.upc = r.upc)).length ≤ 1 :=
      length_filter_key_le_one (fun x => x.upc) r.upc sums h
    have hne : (sums.filter (fun irow => irow.upc = r.upc)).length ≠ 0 := by
      simpa [List.isEmpty_iff, List.length_eq_zero] using he
    rw [if_neg he, List.length_map]
    omega

theorem mergeSales_length (master : List PreppedMasterRow) (sums : List SalesSummaryRow)
    (h : (sums.map (fun x => x.upc)).Nodup) :
    (mergeSales master sums).length = master.length := by
  induction master with
  | nil => rfl
  | cons a t ih =>
    simp [mergeSales, matchRowsSales_length a sums h, ih]
    omega

theorem mergeInvoice_length (rows : List M1Row) (sums : List InvoiceSummaryRow)
    (h : (sums.map (fun x => x.upc)).Nodup) :
    (mergeInvoice rows sums).length = rows.length := by
  induction rows with
  | nil => rfl
  | cons a t ih =>
    simp [mergeInvoice, matchRowsInvoice_length a sums h, ih]
    omega

end Helpers

/-- Claim C2: the output of `update_master_sheet` has exactly one row per
ledger row — the two left joins against the grouped summaries neither drop
nor duplicate a ledger row, whatever the keys are. -/
theorem update_master_sheet_row_count (m : List MasterRow) (s : List SalesRow)
    (i : List InvoiceRow) : (update_master_sheet m s i).length = m.length := by
  unfold update_master_sheet updatedPreCast
  rw [List.length_map, List.length_map,
    mergeInvoice_length _ _ (invoiceSummary_nodup i),
    mergeSales_length _ _ (salesSummary_nodup s)]
  simp [prepMaster]

/-! ## Concrete inputs used by witnesses and counterexamples -/

def mEx : List MasterRow :=
  [{ upc := Cell.str "100", description := Cell.str "Beer", currentStock := Cell.int 10 }]

def sEx : List SalesRow :=
  [{ itemNo := Cell.str "100", description := Cell.str "Beer", units := Cell.int 3 }]

def iEx : List InvoiceRow :=
  [{ upcCode := Cell.str "100", productDescription := Cell.str "Beer",
     quantityConfirmed := Cell.int 5 }]

/-- Ledger whose `current_stock` is the float 0.5 (exactly representable). -/
def mC1 : List MasterRow :=
  [{ upc := Cell.str "100", description := Cell.null, currentStock := Cell.float (1/2) }]

/-- Invoice that delivers the float quantity 0.75 (exactly representable). -/
def iC1 : List InvoiceRow :=
  [{ upcCode := Cell.str "100", productDescription := Cell.null,
     quantityConfirmed := Cell.float (3/4) }]

theorem truncToInt_intCast (n : ℤ) : truncToInt ((n : ℚ)) = n := by
  simp [truncToInt, Rat.num_intCast, Rat.den_intCast]

theorem rat_eq_num_of_den_one {q : ℚ} (h : q.den = 1) : q = ((q.num : ℤ) : ℚ) := by
  have hq := Rat.num_div_den q
  rw [h] at hq
  simpa using hq.symm

/-- Claim C1 (amended): before the terminal integer cast every output row
satisfies the conservation law exactly; after the cast it still holds
whenever the row's `current_stock`, `quantity_sold` and `quantity_received`
are integer-valued (the cast truncates each column separately, so fractional
values can break it — see the counterexample). -/
theorem update_master_sheet_conservation (m : List MasterRow) (s : List SalesRow)
    (i : List InvoiceRow) :
    (∀ r ∈ updatedPreCast m s i,
      r.newStock - r.currentStock = r.quantityReceived - r.quantitySold) ∧
    (∀ r ∈ updatedPreCast m s i,
      r.currentStock.den = 1 → r.quantitySold.den = 1 → r.quantityReceived.den = 1 →
      (castRow r).newStock - (castRow r).currentStock =
        (castRow r).quantityReceived - (castRow r).quantitySold) := by
  have main : ∀ r ∈ updatedPreCast m s i,
      r.newStock - r.currentStock = r.quantityReceived - r.quantitySold := by
    intro r hr
    obtain ⟨x, hx, rfl⟩ := List.mem_map.mp hr
    simp [fillAndCompute]
    ring
  refine ⟨main, ?_⟩
  intro r hr hc hs hrv
  have hc' := rat_eq_num_of_den_one hc
  have hs' := rat_eq_num_of_den_one hs
  have hr' := rat_eq_num_of_den_one hrv
  have hnew : r.newStock =
      ((r.currentStock.num + r.quantityReceived.num - r.quantitySold.num : ℤ) : ℚ) := by
    have h1 := main r hr
    have h2 : r.newStock = r.currentStock + r.quantityReceived - r.quantitySold := by
      linarith [h1]
    rw [h2, hc', hr', hs']
    push_cast [Rat.num_intCast]
    ring
  simp only [castRow]
  rw [hnew, hc', hs', hr', truncToInt_intCast, truncToInt_intCast, truncToInt_intCast,
    truncToInt_intCast]
  simp [Rat.num_intCast]
  omega

/-- Claim C1 counterexample: with `current_stock = 0.5` and a received
quantity of `0.75`, the integer-cast output row has `new_stock = 1`,
`current_stock = 0`, `quantity_received = 0`, `quantity_sold = 0`, violating
`new_stock - current_stock = quantity_received - quantity_sold`. -/
theorem update_master_sheet_cast_conservation_cex :
    ¬ (∀ r ∈ update_master_sheet mC1 [] iC1,
        r.newStock - r.currentStock = r.quantityReceived - r.quantitySold) := by
  decide

def rEx : PreCastRow :=
  { upc := "100", description := Cell.str "Beer", currentStock := 10,
    soldProductName := Cell.str "Beer", quantitySold := 3,
    recivedProductName := Cell.str "Beer", quantityReceived := 5, newStock := 12 }

theorem update_master_sheet_conservation_witness :
    rEx ∈ updatedPreCast mEx sEx iEx ∧ rEx.currentStock.den = 1 ∧
    rEx.quantitySold.den = 1 ∧ rEx.quantityReceived.den = 1 ∧
    rEx.newStock - rEx.currentStock = rEx.quantityReceived - rEx.quantitySold ∧
    (castRow rEx).newStock - (castRow rEx).currentStock =
      (castRow rEx).quantityReceived - (castRow rEx).quantitySold :=
  ⟨by decide, by decide, by decide, by decide,
   (update_master_sheet_conservation mEx sEx iEx).1 rEx (by decide),
   (update_master_sheet_conservation mEx sEx iEx).2 rEx (by decide) (by decide) (by decide)
     (by decide)⟩

theorem mem_mergeSales {u : M1Row} {master : List PreppedMasterRow}
    {sums : List SalesSummaryRow} (hu : u ∈ mergeSales master sums) :
    ∃ r ∈ master, u ∈ matchRowsSales r sums := by
  induction master with
  | nil => cases hu
  | cons a t ih =>
    simp only [mergeSales] at hu
    rcases List.mem_append.mp hu with h | h
    · exact ⟨a, List.mem_cons_self a t, h⟩
    · obtain ⟨r, hr, hm⟩ := ih h
      exact ⟨r, List.mem_cons_of_mem a hr, hm⟩

theorem matchRowsSales_cases {u : M1Row} {r : PreppedMasterRow} {sums : List SalesSummaryRow}
    (hu : u ∈ matchRowsSales r sums) :
    u = unmatchedSales r ∨ ∃ srow ∈ sums, srow.upc = r.upc ∧ u = joinSales r srow := by
  unfold matchRowsSales at hu
  by_cases he : (sums.filter (fun srow => srow.upc = r.upc)).isEmpty
  · rw [if_pos he] at hu
    simp at hu
    exact Or.inl hu
  · rw [if_neg he] at hu
    obtain ⟨srow, hsrow, rfl⟩ := List.mem_map.mp hu
    have hf := List.mem_filter.mp hsrow
    exact Or.inr ⟨srow, hf.1, by simpa using hf.2, rfl⟩

theorem mem_mergeInvoice {u : M2Row} {rows : List M1Row}
    {sums : List InvoiceSummaryRow} (hu : u ∈ mergeInvoice rows sums) :
    ∃ r ∈ rows, u ∈ matchRowsInvoice r sums := by
  induction rows with
  | nil => cases hu
  | cons a t ih =>
    simp only [mergeInvoice] at hu
    rcases List.mem_append.mp hu with h | h
    · exact ⟨a, List.mem_cons_self a t, h⟩
    · obtain ⟨r, hr, hm⟩ := ih h
      exact ⟨r, List.mem_cons_of_mem a hr, hm⟩

theorem matchRowsInvoice_cases {u : M2Row} {r : M1Row} {sums : List InvoiceSummaryRow}
    (hu : u ∈ matchRowsInvoice r sums) :
    u = unmatchedInvoice r ∨ ∃ irow ∈ sums, irow.upc = r.upc ∧ u = joinInvoice r irow := by
  unfold matchRowsInvoice at hu
  by_cases he : (sums.filter (fun irow => irow.upc = r.upc)).isEmpty
  · rw [if_pos he] at hu
    simp at hu
    exact Or.inl hu
  · rw [if_neg he] at hu
    obtain ⟨irow, hirow, rfl⟩ := List.mem_map.mp hu
    have hf := List.mem_filter.mp hirow
    exact Or.inr ⟨irow, hf.1, by simpa using hf.2, rfl⟩

/-- A key carried by a sales-summary row is a key of some raw sales row. -/
theorem salesSummary_key_mem {k : String} {s : List SalesRow}
    (h : k ∈ (salesSummary s).map (fun r => r.upc)) :
    k ∈ s.map (fun r => keyOf r.itemNo) := by
  rw [salesSummary_map_upc] at h
  exact List.mem_dedup.mp h

theorem invoiceSummary_key_mem {k : String} {i : List InvoiceRow}
    (h : k ∈ (invoiceSummary i).map (fun r => r.upc)) :
    k ∈ i.map (fun r => keyOf r.upcCode) := by
  rw [invoiceSummary_map_upc] at h
  exact List.mem_dedup.mp h

/-- A merged row whose key occurs in no raw sales row is NaN on the sales
side. -/
theorem mergeSales_unmatched {u : M1Row} {master : List PreppedMasterRow}
    {s : List SalesRow} (hu : u ∈ mergeSales master (salesSummary s))
    (h : u.upc ∉ s.map (fun r => keyOf r.itemNo)) :
    u.quantitySold = none ∧ u.soldProductName = Cell.null := by
  obtain ⟨r, _, hm⟩ := mem_mergeSales hu
  rcases matchRowsSales_cases hm with rfl | ⟨srow, hsrow, hkey, rfl⟩
  · exact ⟨rfl, rfl⟩
  · exact absurd (salesSummary_key_mem (by
      rw [show (joinSales r srow).upc = srow.upc from hkey.symm ▸ rfl]
      exact List.mem_map_of_mem (fun x => x.upc) hsrow)) h

/-- A second-merge row whose key occurs in no raw invoice row keeps the
sales-side fields of its first-merge ancestor and is NaN on the invoice
side. -/
theorem mergeInvoice_unmatched {u : M2Row} {rows : List M1Row}
    {i : List InvoiceRow} (hu : u ∈ mergeInvoice rows (invoiceSummary i))
    (h : u.upc ∉ i.map (fun r => keyOf r.upcCode)) :
    ∃ r ∈ rows, u = unmatchedInvoice r := by
  obtain ⟨r, hr, hm⟩ := mem_mergeInvoice hu
  rcases matchRowsInvoice_cases hm with rfl | ⟨irow, hirow, hkey, rfl⟩
  · exact ⟨r, hr, rfl⟩
  · exact absurd (invoiceSummary_key_mem (by
      rw [show (joinInvoice r irow).upc = irow.upc from hkey.symm ▸ rfl]
      exact List.mem_map_of_mem (fun x => x.upc) hirow)) h

theorem truncToInt_zero : truncToInt 0 = 0 := by
  simpa using truncToInt_intCast 0

/-- Claim C3: a ledger row whose normalized key occurs in neither the sales
table nor the invoice table comes out of `update_master_sheet` with
`quantity_sold = 0`, `quantity_received = 0` and `new_stock` equal to the
output `current_stock`; in particular the engine also succeeds when NO key
matches, returning the ledger with zero movement. -/
theorem update_master_sheet_zero_fill (m : List MasterRow) (s : List SalesRow)
    (i : List InvoiceRow) :
    ∀ u ∈ update_master_sheet m s i,
      u.upc ∉ s.map (fun r => keyOf r.itemNo) →
      u.upc ∉ i.map (fun r => keyOf r.upcCode) →
      u.quantitySold = 0 ∧ u.quantityReceived = 0 ∧ u.newStock = u.currentStock := by
  intro u hu hns hni
  obtain ⟨p, hp, rfl⟩ := List.mem_map.mp hu
  obtain ⟨x, hx, rfl⟩ := List.mem_map.mp hp
  have hupc : (castRow (fillAndCompute x)).upc = x.upc := rfl
  rw [hupc] at hns hni
  obtain ⟨r1, hr1, rfl⟩ := mergeInvoice_unmatched hx hni
  have hns' : r1.upc ∉ s.map (fun r => keyOf r.itemNo) := hns
  have hsales := mergeSales_unmatched hr1 hns'
  simp [castRow, fillAndCompute, unmatchedInvoice, hsales.1, truncToInt_zero]

def sC3 : List SalesRow :=
  [{ itemNo := Cell.str "200", description := Cell.str "Other", units := Cell.int 2 }]

def uC3 : UpdatedRow :=
  { upc := "100", description := Cell.str "Beer", currentStock := 10,
    soldProductName := Cell.null, quantitySold := 0,
    recivedProductName := Cell.null, quantityReceived := 0, newStock := 10 }

theorem update_master_sheet_zero_fill_witness :
    uC3 ∈ update_master_sheet mEx sC3 [] ∧
    uC3.upc ∉ sC3.map (fun r => keyOf r.itemNo) ∧
    uC3.upc ∉ ([] : List InvoiceRow).map (fun r => keyOf r.upcCode) ∧
    (uC3.quantitySold = 0 ∧ uC3.quantityReceived = 0 ∧ uC3.newStock = uC3.currentStock) :=
  ⟨by decide, by decide, by decide,
   update_master_sheet_zero_fill mEx sC3 [] uC3 (by decide) (by decide) (by decide)⟩

theorem any_of_any_tail {p : Cell → Bool} {row : List Cell}
    (h : row.tail.any p = true) : row.any p = true := by
  cases row with
  | nil => simp at h
  | cons c t =>
    simp only [List.tail_cons] at h
    simp [List.any_cons, h]

/-- Dropping the first column cannot create a sentinel row: the scanned
cells are a subset of the full row's. -/
theorem sentinelRow_tail_false {row : List Cell} (h : sentinelRow row = false) :
    sentinelRow row.tail = false := by
  by_contra hne
  have htail : sentinelRow row.tail = true := by simpa using hne
  unfold sentinelRow at htail h
  rw [Bool.and_eq_true] at htail
  rw [any_of_any_tail htail.1, any_of_any_tail htail.2] at h
  simp at h

theorem findHeaderIdx_eq_none {data : List (List Cell)}
    (h : ∀ row ∈ data, sentinelRow row = false) : findHeaderIdx data = none := by
  induction data with
  | nil => rfl
  | cons a t ih =>
    have ha : sentinelRow a = false := h a (List.mem_cons_self a t)
    simp [findHeaderIdx, ha, ih (fun r hr => h r (List.mem_cons_of_mem a hr))]

theorem colIdx_eq_none {lbl : Cell} {cols : List Cell} (h : lbl ∉ cols) :
    colIdx lbl cols = none := by
  induction cols with
  | nil => rfl
  | cons c t ih =>
    have hc : ¬ c = lbl := fun e => h (by rw [← e]; exact List.mem_cons_self c t)
    simp [colIdx, hc, ih (fun hm => h (List.mem_cons_of_mem c hm))]

theorem colIdx_is_some {lbl : Cell} {cols : List Cell} (h : lbl ∈ cols) :
    ∃ ci, colIdx lbl cols = some ci := by
  induction cols with
  | nil => cases h
  | cons c t ih =>
    by_cases hc : c = lbl
    · exact ⟨0, by simp [colIdx, hc]⟩
    · obtain ⟨ci, hci⟩ := ih (by
        rcases List.mem_cons.mp h with h1 | h1
        · exact absurd h1.symm hc
        · exact h1)
      exact ⟨ci + 1, by simp [colIdx, hc, hci]⟩

theorem applyItemNo_error {cols2 : List Cell} (data2 : List (List Cell))
    (h : Cell.str "Item No" ∉ cols2) : applyItemNo cols2 data2 = Except.error "KeyError" := by
  unfold applyItemNo
  rw [colIdx_eq_none h]

theorem applyItemNo_ok {cols2 : List Cell} (data2 : List (List Cell))
    (h : Cell.str "Item No" ∈ cols2) :
    ∃ out, applyItemNo cols2 data2 = Except.ok out ∧ out.cols = cols2 := by
  obtain ⟨ci, hci⟩ := colIdx_is_some h
  exact ⟨_, by unfold applyItemNo; rw [hci], rfl⟩

/-- Claim C4 (amended): on a sales table with no sentinel row the cleaner
does NOT return its input unmodified and is not raise-free: it still drops
the first column, then raises `KeyError` when the remaining columns carry no
`Item No` label, and otherwise returns the first-column-dropped (and
key-coerced, null-row-filtered) table, which differs from the input. -/
theorem clean_sales_xlsx_no_sentinel (df : PDF) (hc : df.cols ≠ [])
    (hs : ∀ row ∈ df.data, sentinelRow row = false) :
    (Cell.str "Item No" ∉ df.cols.tail → clean_sales_xlsx df = Except.error "KeyError") ∧
    (Cell.str "Item No" ∈ df.cols.tail →
      ∃ out, clean_sales_xlsx df = Except.ok out ∧ out.cols = df.cols.tail ∧ out ≠ df) := by
  obtain ⟨cols, data⟩ := df
  cases cols with
  | nil => exact absurd rfl hc
  | cons c0 rest =>
    have hnone : findHeaderIdx (data.map List.tail) = none := by
      apply findHeaderIdx_eq_none
      intro row hrow
      obtain ⟨orig, horig, rfl⟩ := List.mem_map.mp hrow
      exact sentinelRow_tail_false (hs orig horig)
    have hrun : clean_sales_xlsx ⟨c0 :: rest, data⟩ = applyItemNo rest (data.map List.tail) := by
      unfold clean_sales_xlsx
      simp [hnone]
    constructor
    · intro hnotin
      rw [hrun]
      exact applyItemNo_error _ (by simpa using hnotin)
    · intro hin
      obtain ⟨out, hout, hcols⟩ := applyItemNo_ok (data.map List.tail) (by simpa using hin)
      refine ⟨out, by rw [hrun]; exact hout, by simpa using hcols, ?_⟩
      intro heq
      have : out.cols = c0 :: rest := by rw [heq]
      rw [hcols] at this
      have hlen := congrArg List.length this
      simp at hlen

def pdfA : PDF := { cols := [Cell.str "A", Cell.str "B"], data := [[Cell.str "x", Cell.str "y"]] }

/-- Claim C4 counterexample: a sales table with no sentinel row and no
`Item No` column makes `clean_sales_xlsx` raise `KeyError` — it neither
avoids raising nor returns the input unmodified. -/
theorem clean_sales_xlsx_degraded_cex :
    clean_sales_xlsx pdfA = Except.error "KeyError" ∧
    clean_sales_xlsx pdfA ≠ Except.ok pdfA := by decide

theorem clean_sales_xlsx_no_sentinel_witness :
    pdfA.cols ≠ [] ∧ (∀ row ∈ pdfA.data, sentinelRow row = false) ∧
    Cell.str "Item No" ∉ pdfA.cols.tail ∧
    clean_sales_xlsx pdfA = Except.error "KeyError" :=
  ⟨by decide, by decide, by decide,
   (clean_sales_xlsx_no_sentinel pdfA (by decide) (by decide)).1 (by decide)⟩

/-- Claim C5 counterexample: the raw identifier `"012345-6"` normalizes to
`"123456"` when it arrives through the master sheet but stays `"012345-6"`
when it arrives through the sales sheet, so the three sources do NOT share
one normalization. -/
theorem key_normalization_cex :
    masterSourceKey "012345-6" = "123456" ∧
    salesSourceKey (Cell.str "012345-6") = "012345-6" ∧
    masterSourceKey "012345-6" ≠ salesSourceKey (Cell.str "012345-6") := by decide

/-- Claim C5 (amended): each source normalizes keys by its own rule.  The
master path removes hyphens and leading zeros but keeps embedded spaces; the
sales path only stringifies and strips surrounding whitespace (a float
becomes `"123456.0"`); the invoice path casts through `int`, raising
`ValueError` on `"012345-6"` and `"12345 6"`.  None of the three sample
identifiers receives one common key across the sources. -/
theorem key_normalization_per_source :
    masterSourceKey "012345-6" = "123456" ∧
    masterSourceKey "12345 6" = "12345 6" ∧
    salesSourceKey (Cell.str "012345-6") = "012345-6" ∧
    salesSourceKey (Cell.str "12345 6") = "12345 6" ∧
    salesSourceKey (Cell.float 123456) = "123456.0" ∧
    invoiceSourceKey (Cell.float 123456) = Except.ok "123456" ∧
    invoiceSourceKey (Cell.str "012345-6") = Except.error "ValueError" ∧
    invoiceSourceKey (Cell.str "12345 6") = Except.error "ValueError" := by decide

def mC6 : List MasterRow :=
  [{ upc := Cell.str "100", description := Cell.str "Beer", currentStock := Cell.int 5 }]

/-- Claim C6 (code bug): `app.py` lines 55-56 call `fillna('Not Applicable')`
without `inplace=True` and discard the result, so a ledger row with no sales
and no invoice match keeps NaN — not the sentinel `'Not Applicable'` — in
both name columns of the output. -/
theorem fillna_sentinel_discarded :
    (update_master_sheet mC6 [] []).map
        (fun r => (r.soldProductName, r.recivedProductName)) =
      [(Cell.null, Cell.null)] ∧
    Cell.null ≠ Cell.str "Not Applicable" := by decide

/-- Claim C8 counterexample: an empty ledger does not make the engine signal
any error — `update_master_sheet` returns an empty table. -/
theorem empty_ledger_no_error_cex :
    update_master_sheet ([] : List MasterRow) sEx iEx = [] := by decide

/-- Claim C8 (amended): for every sales and invoice input, an empty ledger
yields an empty updated-ledger table; no `MissingRequiredInput`-style
failure exists in the engine. -/
theorem update_master_sheet_empty_ledger (s : List SalesRow) (i : List InvoiceRow) :
    update_master_sheet ([] : List MasterRow) s i = [] := rfl

/-- Claim C9: the engine is deterministic and stateless — equal ledger,
sales and invoice inputs produce equal outputs. -/
theorem update_master_sheet_deterministic (m₁ m₂ : List MasterRow)
    (s₁ s₂ : List SalesRow) (i₁ i₂ : List InvoiceRow)
    (hm : m₁ = m₂) (hs : s₁ = s₂) (hi : i₁ = i₂) :
    update_master_sheet m₁ s₁ i₁ = update_master_sheet m₂ s₂ i₂ := by
  rw [hm, hs, hi]

theorem update_master_sheet_deterministic_witness :
    mEx = mEx ∧ sEx = sEx ∧ iEx = iEx ∧
    update_master_sheet mEx sEx iEx = update_master_sheet mEx sEx iEx :=
  ⟨rfl, rfl, rfl, update_master_sheet_deterministic mEx mEx sEx sEx iEx iEx rfl rfl rfl⟩

/-- Master frame containing a hyphenated, zero-led UPC, used to observe the
in-place mutation of `clean_beer_store_master`. -/
def mMut : List MasterRow :=
  [{ upc := Cell.str "012-3", description := Cell.str "Beer", currentStock := Cell.int 1 }]

/-- Invoice frame containing a float UPC code and a null-keyed row, used to
observe the column-only in-place mutation of `clean_beer_store_invoice_df`. -/
def iMut : List InvoiceRow :=
  [{ upcCode := Cell.float 5, productDescription := Cell.str "Beer",
     quantityConfirmed := Cell.int 2 },
   { upcCode := Cell.null, productDescription := Cell.str "Stout",
     quantityConfirmed := Cell.int 4 }]

/-- Claim C10: `update_master_sheet` leaves all three argument frames exactly
as it received them (it works on copies), while `clean_beer_store_master`
and `clean_beer_store_invoice_df` mutate the frame they are given (the
latter keeps the null-keyed row in the argument: only the returned frame has
it dropped). -/
theorem mutation_profile :
    (∀ (m : List MasterRow) (s : List SalesRow) (i : List InvoiceRow),
      (update_master_sheet_call m s i).2 = (m, s, i)) ∧
    (clean_beer_store_master_call mMut).2 ≠ mMut ∧
    (clean_beer_store_invoice_df_call iMut).2 ≠ iMut :=
  ⟨fun _ _ _ => rfl, by decide, by decide⟩

/-- Sales upload whose single data row has a null `Item No` (and no sentinel
header row anywhere). -/
def pdfNull : PDF :=
  { cols := [Cell.str "junk", Cell.str "Item No", Cell.str "Units"],
    data := [[Cell.str "x", Cell.null, Cell.int 3]] }

/-- Claim C7 counterexample: a sales row whose `Item No` cell is null is NOT
excluded by `clean_sales_xlsx`: line 86 stringifies the null to `"nan"`
before line 87's `dropna` runs, so the row survives under the placeholder
key `"nan"`. -/
theorem null_key_sales_retained_cex :
    clean_sales_xlsx pdfNull =
      Except.ok { cols := [Cell.str "Item No", Cell.str "Units"],
                  data := [[Cell.str "nan", Cell.int 3]] } ∧
    Cell.str "nan" ≠ Cell.null := by decide

/-- Claim C7 (amended): null-key rows are excluded during cleaning only for
the invoice table (`dropna(subset=['UPC Code'])` after a null-preserving
cast); the sales cleaner instead converts a null `Item No` to the string
`"nan"` and keeps the row whenever no other cell is null. -/
theorem null_key_policy :
    (∀ (df out : List InvoiceRow), clean_beer_store_invoice_df df = Except.ok out →
      ∀ r ∈ out, r.upcCode ≠ Cell.null) ∧
    clean_sales_xlsx pdfNull =
      Except.ok { cols := [Cell.str "Item No", Cell.str "Units"],
                  data := [[Cell.str "nan", Cell.int 3]] } := by
  constructor
  · intro df out hok r hr
    unfold clean_beer_store_invoice_df at hok
    cases hm : df.mapM
        (fun r => (invoiceCastCell r.upcCode).map (fun c => { r with upcCode := c })) with
    | error e =>
      rw [hm] at hok
      cases hok
    | ok cast =>
      rw [hm] at hok
      simp only [Bind.bind, Except.bind, pure, Except.pure, Except.ok.injEq] at hok
      rw [← hok] at hr
      have hmem := List.mem_filter.mp hr
      simpa using hmem.2
  · decide

def iOutW : List InvoiceRow :=
  [{ upcCode := Cell.str "5", productDescription := Cell.str "Beer",
     quantityConfirmed := Cell.int 2 }]

def rW : InvoiceRow :=
  { upcCode := Cell.str "5", productDescription := Cell.str "Beer",
    quantityConfirmed := Cell.int 2 }

theorem null_key_policy_witness :
    clean_beer_store_invoice_df iMut = Except.ok iOutW ∧ rW ∈ iOutW ∧
    rW.upcCode ≠ Cell.null :=
  ⟨by decide, by decide, null_key_policy.1 iMut iOutW (by decide) rW (by decide)⟩
